import Mathlib

/-
  Verification development for the nostr2http event pipeline (lib/server.ts).

  Shallow-embedding conventions used throughout this file:

  * JavaScript numbers are modelled as `Rat` (JSON numbers are arbitrary decimals and
    `Date.now() / 1000` is fractional).
  * `Buffer` values are modelled as `List Nat` (the byte sequence).  The ASCII string
    literals that the server turns into buffers are converted with `asciiBytes`.
  * A JavaScript `Map` is modelled as an association list in insertion order
    (`alistSet` replaces in place exactly like `Map.set`; `Map.size` is the list length,
    which matches because every map in the server is only ever built through `set`).
  * Dynamically-typed record fields are type-erased: a field that must pass a
    `typeof x === 'string'` check is modelled as `Option String` (`none` = the field is
    absent or is not a string), and similarly for numbers.
  * Injected services (the minimatch glob matcher, the HTTP client, the response
    manipulator, NIP-44 encryption, key derivation and base64 decoding) are taken as
    function parameters, so theorems quantify over their behaviour.
-/

namespace Nostr2Http

/-- JavaScript `Map.set`: replace the value in place when the key is already present,
otherwise append the new entry (insertion order is preserved, as in JS). -/
def alistSet {κ α : Type} [DecidableEq κ] : List (κ × α) → κ → α → List (κ × α)
  | [], k, v => [(k, v)]
  | (k', v') :: rest, k, v =>
    if k' = k then (k, v) :: rest else (k', v') :: alistSet rest k v

/-- JavaScript `Map.get` (`none` = `undefined`). -/
def alistGet {κ α : Type} [DecidableEq κ] : List (κ × α) → κ → Option α
  | [], _ => none
  | (k', v') :: rest, k => if k' = k then some v' else alistGet rest k

/-- JavaScript `Map.has`. -/
def alistHas {κ α : Type} [DecidableEq κ] (m : List (κ × α)) (k : κ) : Bool :=
  (alistGet m k).isSome

/-- JavaScript `Map.delete`. -/
def alistDelete {κ α : Type} [DecidableEq κ] (m : List (κ × α)) (k : κ) : List (κ × α) :=
  m.filter (fun p => decide (p.1 ≠ k))

/-- Bytes of an ASCII string: models `Buffer.from(s)` for the ASCII literals
(`'Forbidden route'`, `'Request failed'`) used in server.ts. -/
def asciiBytes (s : String) : List Nat := s.data.map Char.toNat

/-! ## The route gate and `getResponse` (server.ts lines 162-260) -/

/-- The reassembled request handed to `getResponse` (interface `RequestInfo`). -/
structure RequestInfo where
  url : String
  method : String
  headers : List (String × String)
  bodyBuffer : List Nat
deriving DecidableEq

/-- interface `ResponseInfo`: status, single-valued headers, full body. -/
structure ResponseInfo where
  status : Rat
  headers : List (String × String)
  bodyBuffer : List Nat
deriving DecidableEq

/-- server.ts lines 177-180: `isRouteAllowed`.  The minimatch matchers are injected
as boolean predicates on the URL.  `positiveMinimatchers = none` models the absence
of the `--allowed-routes` option (allow everything); `url[0] === '/'` is the test
that the first character of the URL is a slash. -/
def routeAllowed (positiveMinimatchers : Option (List (String → Bool)))
    (negativeMinimatchers : List (String → Bool)) (url : String) : Bool :=
  (url.data.head? == some '/')
  && (match positiveMinimatchers with
      | none => true
      | some ms => ms.any (fun m => m url))
  && !(negativeMinimatchers.any (fun m => m url))

/-- Type-erased view of a JavaScript object returned by the response manipulator:
`numKeys` is `Object.keys(x).length`; `status` is `some` exactly when the `status`
field is present with `typeof status === 'number'`; `headers` is `some` exactly when
the `headers` field is a truthy object (its values kept as `Option String`, `none`
for a non-string value); `bodyBuffer` is `some` exactly when `Buffer.isBuffer` holds. -/
structure ManipObj where
  numKeys : Nat
  status : Option Rat
  headers : Option (List (String × Option String))
  bodyBuffer : Option (List Nat)

/-- Possible outcomes of awaiting `responseManipulatorModule.default(...)`. -/
inductive ManipResult where
  | undef
  | nonObject
  | obj (o : ManipObj)
  | throws

/-- server.ts lines 232-251: the shape checks applied to a non-undefined manipulator
return value.  `none` models the `throw new Error(...)` branches. -/
def validateManip (o : ManipObj) : Option ResponseInfo :=
  if 3 < o.numKeys then none
  else
    match o.status, o.headers, o.bodyBuffer with
    | some s, some hs, some b =>
      if hs.any (fun p => p.2.isNone) then none
      else some { status := s, headers := hs.map (fun p => (p.1, p.2.getD "")), bodyBuffer := b }
    | _, _, _ => none

/-- The synthetic response built in the catch block (server.ts lines 254-258). -/
def fault500 : ResponseInfo :=
  { status := 500, headers := [], bodyBuffer := asciiBytes "Request failed" }

/-- The synthetic response for a denied route (server.ts lines 183-187). -/
def forbidden403 : ResponseInfo :=
  { status := 403, headers := [], bodyBuffer := asciiBytes "Forbidden route" }

/-- Outcome of the origin HTTP dispatch (the promise built at server.ts lines 189-218).
`ok` = the `'end'` handler resolved; `transportError` = the `'error'` handler rejected
(transport or protocol error); `timedOut` = the configured timeout elapsed with no
response: the socket emits `'timeout'`, but the code registers no `'timeout'`
listener and never destroys the request, so neither `resolve` nor `reject` runs. -/
inductive OriginOutcome where
  | ok (r : ResponseInfo)
  | transportError
  | timedOut

/-- server.ts lines 162-260: `getResponse`, with the origin HTTP call and the
manipulator call abstracted into outcome parameters.  The result is the pair of
* the value the returned promise settles to (`none` = the promise never settles,
  i.e. `getResponse` hangs), and
* whether the origin HTTP request was issued (`requestModule.request` reached). -/
def getResponse (requestInfo : RequestInfo)
    (positiveMinimatchers : Option (List (String → Bool)))
    (negativeMinimatchers : List (String → Bool))
    (origin : OriginOutcome)
    (manipulator : Option (ResponseInfo → ManipResult)) :
    Option ResponseInfo × Bool :=
  if !routeAllowed positiveMinimatchers negativeMinimatchers requestInfo.url then
    (some forbidden403, false)
  else
    match origin with
    | .timedOut => (none, true)
    | .transportError => (some fault500, true)
    | .ok responseInfo =>
      match manipulator with
      | none => (some responseInfo, true)
      | some f =>
        match f responseInfo with
        | .undef => (some responseInfo, true)
        | .nonObject => (some fault500, true)
        | .throws => (some fault500, true)
        | .obj o =>
          match validateManip o with
          | some r' => (some r', true)
          | none => (some fault500, true)

/-! ## The response chunker (server.ts lines 490-518) -/

/-- `const partBodyMaxSize = 16384` (server.ts line 34). -/
def partBodyMaxSize : Nat := 16384

/-- The loop at server.ts lines 494-501: for each `partIndex` with
`partIndex * partBodyMaxSize < bodyBuffer.length`, emit
`bodyBuffer.subarray(partIndex * max, (partIndex + 1) * max)` together with the index.
`subarray(a, b)` is `(drop a).take (b - a)`. -/
def chunksFrom (bodyBuffer : List Nat) (partIndex : Nat) : List (List Nat × Nat) :=
  if partIndex * partBodyMaxSize < bodyBuffer.length then
    ((bodyBuffer.drop (partIndex * partBodyMaxSize)).take partBodyMaxSize, partIndex)
      :: chunksFrom bodyBuffer (partIndex + 1)
  else []
termination_by bodyBuffer.length - partIndex * partBodyMaxSize
decreasing_by simp only [partBodyMaxSize] at *; omega

/-- server.ts lines 490-502: an empty body yields the single chunk `['', 0]`,
otherwise the loop above starting at index 0. -/
def chunkBody (bodyBuffer : List Nat) : List (List Nat × Nat) :=
  if bodyBuffer.length = 0 then [([], 0)] else chunksFrom bodyBuffer 0

/-- interface `ResponseMessage`.  `bodyChunk` holds the pre-base64 bytes of the
`bodyBase64` field (base64 encoding round-trips, so we keep the decoded form). -/
structure ResponseMessage where
  id : String
  partIndex : Nat
  parts : Nat
  status : Option Rat
  headers : Option (List (String × String))
  bodyChunk : List Nat
deriving DecidableEq

/-- server.ts lines 503-518: one `ResponseMessage` per chunk; only the chunk with
`partIndex === 0` carries `status` and `headers` (the `...(partIndex === 0 && {...})`
spread). -/
def buildResponseMessages (requestId : String) (responseInfo : ResponseInfo) :
    List ResponseMessage :=
  let chunks := chunkBody responseInfo.bodyBuffer
  chunks.map (fun c =>
    { id := requestId,
      partIndex := c.2,
      parts := chunks.length,
      status := if c.2 = 0 then some responseInfo.status else none,
      headers := if c.2 = 0 then some responseInfo.headers else none,
      bodyChunk := c.1 })

/-! ## RequestMessage parsing and validation (server.ts lines 403-434) -/

/-- Type-erased view of the object produced by `JSON.parse(unsignedRequest.content)`
before validation: each field is `some` exactly when it is present with the expected
JavaScript type (string fields as `Option String`, number fields as `Option Rat`;
`headers` is `some` when it is a truthy object, its values kept as `Option String`). -/
structure RawRequestMessage where
  id : Option String
  partIndex : Option Rat
  parts : Option Rat
  bodyBase64 : Option String
  url : Option String
  method : Option String
  headers : Option (List (String × Option String))
deriving DecidableEq

/-- interface `RequestMessage` after the validation at lines 404-434 succeeded.
`url`, `method`, `headers` are guaranteed present (`some`) when `partIndex = 0`;
for other indices they pass through unvalidated and are never read downstream. -/
structure RequestMessage where
  id : String
  partIndex : Nat
  parts : Nat
  bodyBase64 : String
  url : Option String
  method : Option String
  headers : Option (List (String × String))
deriving DecidableEq

/-- `Number.isSafeInteger`: an integer of magnitude at most `2^53 - 1`. -/
def isSafeIntegerJS (q : Rat) : Bool :=
  decide (q.den = 1) && decide (q.num.natAbs ≤ 2 ^ 53 - 1)

/-- server.ts lines 404-434: the field checks on the parsed request message, in source
order; `none` models the `throw new Error('Unexpected type for field: ...')` branches.
The truthiness tests `!id`, `!url`, `!method` reject the empty string. -/
def validateRaw (raw : RawRequestMessage) : Option RequestMessage :=
  match raw.id with
  | none => none
  | some i =>
    if i = "" ∨ 100 < i.length then none
    else
      match raw.partIndex with
      | none => none
      | some pIdx =>
        if !isSafeIntegerJS pIdx || decide (pIdx < 0) then none
        else
          match raw.parts with
          | none => none
          | some pTotal =>
            if !isSafeIntegerJS pTotal || decide (pTotal < 1) then none
            else
              match raw.bodyBase64 with
              | none => none
              | some body =>
                if pIdx = 0 then
                  match raw.url, raw.method, raw.headers with
                  | some u, some m, some hs =>
                    if u = "" ∨ m = "" ∨ hs.any (fun p => p.2.isNone) then none
                    else
                      some { id := i, partIndex := pIdx.num.toNat, parts := pTotal.num.toNat,
                             bodyBase64 := body, url := some u, method := some m,
                             headers := some (hs.map (fun p => (p.1, p.2.getD ""))) }
                  | _, _, _ => none
                else
                  some { id := i, partIndex := pIdx.num.toNat, parts := pTotal.num.toNat,
                         bodyBase64 := body, url := raw.url, method := raw.method,
                         headers := raw.headers.map (fun hs => hs.map (fun p => (p.1, p.2.getD ""))) }

/-- The `content` field of the decrypted unsigned request, with `JSON.parse`
abstracted to its outcome: `notAString` = `typeof content !== 'string'` (rejected at
line 382 before the dedup insert); `unparsable` = `JSON.parse` throws or yields a
falsy/non-object value (the line 403-405 failures); `parsed raw` = a parsed object. -/
inductive ContentVal where
  | notAString
  | unparsable
  | parsed (raw : RawRequestMessage)
deriving DecidableEq

def contentIsString : ContentVal → Bool
  | .notAString => false
  | _ => true

/-- Lines 403-434 combined: parse, then validate. -/
def parseValidate : ContentVal → Option RequestMessage
  | .parsed raw => validateRaw raw
  | _ => none

/-! ## The reassembly buffer (server.ts lines 441-474) -/

/-- `pendingRequest.requestMessages : Map<number, RequestMessage>`. -/
abbrev PartMap := List (Nat × RequestMessage)

/-- `pendingRequests : Map<string, PendingRequest>` (the 60 s expiry timer is real
time and is not modelled; no claim depends on it). -/
abbrev PendingMap := List (String × PartMap)

/-- The reassembled request handed to `getResponse` (server.ts lines 466-474). -/
structure CompleteRequest where
  url : String
  method : String
  headers : List (String × String)
  bodyBuffer : List Nat
deriving DecidableEq

inductive OfferResult where
  | incomplete
  | missingFirst
  | complete (req : CompleteRequest)
deriving DecidableEq

/-- Lines 441-450: look up (or create) the pending entry for `msg.id` and store the
part at key `msg.partIndex` (`Map.set`: last write wins). -/
def offerInsert (pending : PendingMap) (msg : RequestMessage) : PartMap :=
  alistSet ((alistGet pending msg.id).getD []) msg.partIndex msg

/-- Lines 470-474: `Buffer.concat(Array.from({length: size}).map((_, index) =>
Buffer.from(map.get(index)?.bodyBase64 ?? '', 'base64')))` — concatenate the decoded
bodies at indices `0 .. size-1`, a missing index contributing `decode ""`.
`decode` is the injected base64 decoder (with `decode "" = []` in Node). -/
def assembleBody (decode : String → List Nat) (partMap : PartMap) : List Nat :=
  ((List.range partMap.length).map
    (fun idx => decode (((alistGet partMap idx).map RequestMessage.bodyBase64).getD ""))).flatten

/-- server.ts lines 441-474: one reassembly step.  After inserting the offered part,
if the map size is still below the *offered part's* `parts` value the entry is kept
and nothing completes; otherwise the entry is removed and, provided a part with index
0 exists, the reassembled request is produced (its `url`/`method`/`headers` read off
the index-0 part through TypeScript non-null assertions, modelled by `getD`).
`missingFirst` models the `throw new Error('Malformed request sequence')` at line 458. -/
def offer (decode : String → List Nat) (pending : PendingMap) (msg : RequestMessage) :
    PendingMap × OfferResult :=
  let updated := offerInsert pending msg
  if updated.length < msg.parts then
    (alistSet pending msg.id updated, .incomplete)
  else
    match alistGet updated 0 with
    | none => (alistDelete pending msg.id, .missingFirst)
    | some first =>
      (alistDelete pending msg.id,
       .complete { url := first.url.getD "",
                   method := first.method.getD "",
                   headers := first.headers.getD [],
                   bodyBuffer := assembleBody decode updated })

/-! ## The inner-event stage of the pipeline (server.ts lines 316-330 and 375-474) -/

/-- The decrypted unsigned inner request (`JSON.parse(decryptedContent)`), type-erased:
`created_at` and `id` are `some` exactly when they have the right JavaScript type
(line 382); `sealPubkey` is `requestSeal.pubkey`, compared at line 378.  `kind` is a
number (a non-number `kind` fails `kind !== 80` just like any number other than 80). -/
structure InnerEvent where
  kind : Rat
  pubkey : String
  sealPubkey : String
  created_at : Option Rat
  id : Option String
  content : ContentVal
deriving DecidableEq

inductive DropReason where
  | badKind | badPubkey | badFormat | tooOld | future | replay | contentError | missingFirstPart
deriving DecidableEq

/-- Result of handling one decrypted inner event: silently dropped, a part stored
awaiting more, or a complete request dispatched to `getResponse` (which then produces
exactly one outgoing response sequence). -/
inductive HandleResult where
  | dropped (reason : DropReason)
  | stored
  | dispatched (req : CompleteRequest)
deriving DecidableEq

/-- The mutable state shared by the handlers: the time cursor `oldestTime`
(line 316), the request-dedup map `handledRequestIds` (line 317) and the reassembly
map `pendingRequests` (line 330). -/
structure ServerState where
  oldestTime : Rat
  handledRequestIds : List (String × Rat)
  pendingRequests : PendingMap
deriving DecidableEq

/-- server.ts lines 375-474: the checks and state updates applied to one decrypted
inner event, in source order: kind (375), pubkey binding (378), field types (382),
`created_at < oldestTime` (390), `now + 600 < created_at` (394), the dedup check
(398) and unconditional insert (402), content parsing and validation (403-434), and
the reassembly step (441-474).  `now` is `Date.now() / 1000` at the line-394 check. -/
def handleInner (decode : String → List Nat) (now : Rat) (st : ServerState)
    (ev : InnerEvent) : ServerState × HandleResult :=
  if ev.kind ≠ 80 then (st, .dropped .badKind)
  else if ev.pubkey ≠ ev.sealPubkey then (st, .dropped .badPubkey)
  else
    match ev.created_at, ev.id with
    | some c, some i =>
      if !contentIsString ev.content then (st, .dropped .badFormat)
      else if c < st.oldestTime then (st, .dropped .tooOld)
      else if now + 600 < c then (st, .dropped .future)
      else if alistHas st.handledRequestIds i then (st, .dropped .replay)
      else
        let st1 : ServerState := { st with handledRequestIds := alistSet st.handledRequestIds i c }
        match parseValidate ev.content with
        | none => (st1, .dropped .contentError)
        | some msg =>
          let p := offer decode st1.pendingRequests msg
          let st2 : ServerState := { st1 with pendingRequests := p.1 }
          match p.2 with
          | .incomplete => (st2, .stored)
          | .missingFirst => (st2, .dropped .missingFirstPart)
          | .complete req => (st2, .dispatched req)
    | _, _ => (st, .dropped .badFormat)

def isDispatched : HandleResult → Bool
  | .dispatched _ => true
  | _ => false

/-- An event "accepted by the pipeline": it passed the admission checks (kind,
identity, field types, time window and dedup) and was inserted into the dedup map.
Later content-validation or reassembly failures do not undo the admission. -/
def passedAdmission : HandleResult → Bool
  | .dropped .contentError => true
  | .dropped .missingFirstPart => true
  | .dropped _ => false
  | _ => true

/-- One compaction tick of the 10-minute interval (server.ts lines 319-326):
set `oldestTime` to the tick's wall-clock time minus 60 s and drop dedup entries
older than that. -/
def tickStep (t : Rat) (st : ServerState) : ServerState :=
  let newOldest := t - 60
  { st with oldestTime := newOldest,
            handledRequestIds := st.handledRequestIds.filter (fun p => !decide (p.2 < newOldest)) }

/-- An observable pipeline action: a compaction tick at wall-clock time `t`, or the
delivery of a decrypted inner event when the wall clock reads `now`. -/
inductive Action where
  | tick (t : Rat)
  | deliver (now : Rat) (ev : InnerEvent)

def actionTime : Action → Rat
  | .tick t => t
  | .deliver now _ => now

def isTick : Action → Bool
  | .tick _ => true
  | _ => false

/-- Run a sequence of actions, collecting for every delivery the wall-clock time, the
event and its handling result. -/
def runTrace (decode : String → List Nat) (st : ServerState) :
    List Action → ServerState × List (Rat × InnerEvent × HandleResult)
  | [] => (st, [])
  | .tick t :: rest => runTrace decode (tickStep t st) rest
  | .deliver now ev :: rest =>
    let p := handleInner decode now st ev
    let r := runTrace decode p.1 rest
    (r.1, (now, ev, p.2) :: r.2)

/-- The state right after `runServer` initialises it (server.ts lines 316-330):
`oldestTime = Date.now() / 1000` at process start (no 60 s allowance), empty maps. -/
def initialState (startTime : Rat) : ServerState :=
  { oldestTime := startTime, handledRequestIds := [], pendingRequests := [] }

/-! ## The outgoing seal/gift-wrap construction (server.ts lines 520-581) -/

/-- A finalized (signed) event.  `pubkey` is the hex public key `finalizeEvent`
derives from the signing secret; `signedBy` records which secret produced the
signature.  Secrets have an abstract type `α`. -/
structure SignedEvent (α : Type) where
  kind : Nat
  created_at : Rat
  tags : List (List String)
  content : String
  pubkey : String
  signedBy : α

/-- server.ts lines 540-581 for one response chunk: the seal (kind 13, back-dated by
`sealAge = randomInt(0, 48*3600)`, content encrypted with
`convKey(secretKey, requesterPub)`, signed with the long-lived `secretKey`) and the
gift-wrap (kind 21059, `p`-tag for the requester with the safe relay hints, content
encrypted with `convKey(randomKey, requesterPub)`, signed with the freshly generated
`randomKey`).  `publicOf` is `getPublicKey`, `convKey`/`encrypt` are the NIP-44
primitives, `sealJson` is `JSON.stringify` on the seal, `innerJson` the stringified
unsigned inner response. -/
def buildChunkEvents {α κ : Type} (publicOf : α → String) (convKey : α → String → κ)
    (encrypt : String → κ → String) (sealJson : SignedEvent α → String)
    (secretKey randomKey : α) (requesterPub : String)
    (now sealAge : Rat) (innerJson : String) (safeRelays : List String) :
    SignedEvent α × SignedEvent α :=
  let sealEv : SignedEvent α :=
    { kind := 13, created_at := now - sealAge, tags := [],
      content := encrypt innerJson (convKey secretKey requesterPub),
      pubkey := publicOf secretKey, signedBy := secretKey }
  let wrapEv : SignedEvent α :=
    { kind := 21059, created_at := now,
      tags := [["p", requesterPub, safeRelays.headD ""]]
        ++ (if 1 < safeRelays.length then [["relays"] ++ safeRelays.tail] else []),
      content := encrypt (sealJson sealEv) (convKey randomKey requesterPub),
      pubkey := publicOf randomKey, signedBy := randomKey }
  (sealEv, wrapEv)

/-- The loop over response chunks (server.ts lines 503-601): one fresh random key and
one random seal age are drawn per chunk (`generateSecretKey()` at line 560 and
`randomInt` at line 546 are inside the loop), so the chunk contents are zipped with
the stream of generated keys and ages. -/
def publishSequence {α κ : Type} (publicOf : α → String) (convKey : α → String → κ)
    (encrypt : String → κ → String) (sealJson : SignedEvent α → String)
    (secretKey : α) (randomKeys : List α) (requesterPub : String)
    (now : Rat) (sealAges : List Rat) (chunkJsons : List String)
    (safeRelays : List String) : List (SignedEvent α × SignedEvent α) :=
  List.zipWith
    (fun cj (p : α × Rat) =>
      buildChunkEvents publicOf convKey encrypt sealJson secretKey p.1 requesterPub
        now p.2 cj safeRelays)
    chunkJsons (randomKeys.zip sealAges)

/-! ## Chunker lemmas -/

theorem chunksFrom_length (bodyBuffer : List Nat) (partIndex : Nat) :
    (chunksFrom bodyBuffer partIndex).length =
      (bodyBuffer.length - partIndex * partBodyMaxSize + (partBodyMaxSize - 1)) /
        partBodyMaxSize := by
  rw [chunksFrom]
  split
  · rw [List.length_cons, chunksFrom_length bodyBuffer (partIndex + 1)]
    simp only [partBodyMaxSize] at *
    omega
  · simp only [List.length_nil]
    simp only [partBodyMaxSize] at *
    omega
termination_by bodyBuffer.length - partIndex * partBodyMaxSize
decreasing_by simp only [partBodyMaxSize] at *; omega

theorem chunksFrom_flatten (bodyBuffer : List Nat) (partIndex : Nat) :
    ((chunksFrom bodyBuffer partIndex).map Prod.fst).flatten =
      bodyBuffer.drop (partIndex * partBodyMaxSize) := by
  rw [chunksFrom]
  split
  · rw [List.map_cons, List.flatten_cons, chunksFrom_flatten bodyBuffer (partIndex + 1)]
    have hstep : (partIndex + 1) * partBodyMaxSize =
        partIndex * partBodyMaxSize + partBodyMaxSize := by ring
    dsimp only
    rw [hstep, ← List.drop_drop, List.take_append_drop]
  · have hle : bodyBuffer.length ≤ partIndex * partBodyMaxSize := by omega
    rw [List.map_nil, List.flatten_nil, List.drop_eq_nil_of_le hle]
termination_by bodyBuffer.length - partIndex * partBodyMaxSize
decreasing_by simp only [partBodyMaxSize] at *; omega

theorem chunksFrom_indices (bodyBuffer : List Nat) (partIndex : Nat) :
    (chunksFrom bodyBuffer partIndex).map Prod.snd =
      List.range' partIndex (chunksFrom bodyBuffer partIndex).length := by
  rw [chunksFrom]
  split
  · rw [List.map_cons, List.length_cons, chunksFrom_indices bodyBuffer (partIndex + 1),
      List.range'_succ]
  · rw [List.map_nil, List.length_nil, List.range']
termination_by bodyBuffer.length - partIndex * partBodyMaxSize
decreasing_by simp only [partBodyMaxSize] at *; omega

theorem chunksFrom_size (bodyBuffer : List Nat) (partIndex : Nat) :
    ∀ c ∈ chunksFrom bodyBuffer partIndex, c.1.length ≤ partBodyMaxSize := by
  rw [chunksFrom]
  split
  · intro c hc
    rcases List.mem_cons.mp hc with hc | hc
    · subst hc
      exact List.length_take_le _ _
    · exact chunksFrom_size bodyBuffer (partIndex + 1) c hc
  · intro c hc
    exact absurd hc (List.not_mem_nil c)
termination_by bodyBuffer.length - partIndex * partBodyMaxSize
decreasing_by simp only [partBodyMaxSize] at *; omega

theorem chunkBody_flatten (bodyBuffer : List Nat) :
    ((chunkBody bodyBuffer).map Prod.fst).flatten = bodyBuffer := by
  by_cases h0 : bodyBuffer.length = 0
  · rw [List.length_eq_zero.mp h0]
    rfl
  · rw [chunkBody, if_neg h0]
    have h := chunksFrom_flatten bodyBuffer 0
    rwa [Nat.zero_mul, List.drop_zero] at h

theorem chunkBody_indices (bodyBuffer : List Nat) :
    (chunkBody bodyBuffer).map Prod.snd = List.range (chunkBody bodyBuffer).length := by
  by_cases h0 : bodyBuffer.length = 0
  · rw [chunkBody, if_pos h0]
    rfl
  · rw [chunkBody, if_neg h0, List.range_eq_range']
    exact chunksFrom_indices bodyBuffer 0

theorem chunkBody_size (bodyBuffer : List Nat) :
    ∀ c ∈ chunkBody bodyBuffer, c.1.length ≤ partBodyMaxSize := by
  by_cases h0 : bodyBuffer.length = 0
  · rw [chunkBody, if_pos h0]
    intro c hc
    rw [List.mem_singleton.mp hc]
    exact Nat.zero_le _
  · rw [chunkBody, if_neg h0]
    exact chunksFrom_size bodyBuffer 0

theorem chunkBody_length (bodyBuffer : List Nat) :
    (chunkBody bodyBuffer).length =
      if bodyBuffer.length = 0 then 1
      else (bodyBuffer.length + (partBodyMaxSize - 1)) / partBodyMaxSize := by
  by_cases h0 : bodyBuffer.length = 0
  · rw [chunkBody, if_pos h0, if_pos h0]
    rfl
  · rw [chunkBody, if_neg h0, if_neg h0, chunksFrom_length]
    rw [Nat.zero_mul, Nat.sub_zero]

/-- Claim C5: the response chunker emits exactly one message with an empty body for an
empty body buffer, and otherwise `ceil(len / 16384)` messages whose bodies are
contiguous slices of at most 16384 bytes concatenating back to the body; every
message carries the request id and `parts` equal to the total count, the part
indices enumerate `[0, parts)`, and exactly the message with `partIndex = 0`
carries `status` and `headers`. -/
theorem C5_response_chunker (requestId : String) (responseInfo : ResponseInfo) :
    (buildResponseMessages requestId responseInfo).length =
      (if responseInfo.bodyBuffer.length = 0 then 1
       else (responseInfo.bodyBuffer.length + (partBodyMaxSize - 1)) / partBodyMaxSize)
    ∧ ((buildResponseMessages requestId responseInfo).map ResponseMessage.bodyChunk).flatten
        = responseInfo.bodyBuffer
    ∧ (∀ m ∈ buildResponseMessages requestId responseInfo,
         m.bodyChunk.length ≤ partBodyMaxSize
         ∧ m.id = requestId
         ∧ m.parts = (buildResponseMessages requestId responseInfo).length
         ∧ m.status = (if m.partIndex = 0 then some responseInfo.status else none)
         ∧ m.headers = (if m.partIndex = 0 then some responseInfo.headers else none))
    ∧ (buildResponseMessages requestId responseInfo).map ResponseMessage.partIndex
        = List.range (buildResponseMessages requestId responseInfo).length := by
  refine ⟨?_, ?_, ?_, ?_⟩
  · rw [buildResponseMessages, List.length_map]
    exact chunkBody_length responseInfo.bodyBuffer
  · rw [buildResponseMessages, List.map_map]
    exact chunkBody_flatten responseInfo.bodyBuffer
  · intro m hm
    rw [buildResponseMessages, List.mem_map] at hm
    obtain ⟨c, hc, rfl⟩ := hm
    refine ⟨chunkBody_size responseInfo.bodyBuffer c hc, rfl, ?_, rfl, rfl⟩
    rw [buildResponseMessages, List.length_map]
  · rw [buildResponseMessages, List.map_map, List.length_map]
    exact chunkBody_indices responseInfo.bodyBuffer

/-! ## Association-list lemmas -/

theorem alistGet_set_self {κ α : Type} [DecidableEq κ] (m : List (κ × α)) (k : κ) (v : α) :
    alistGet (alistSet m k v) k = some v := by
  induction m with
  | nil => simp [alistSet, alistGet]
  | cons p rest ih =>
    by_cases h : p.1 = k
    · simp [alistSet, h, alistGet]
    · simp [alistSet, h, alistGet, ih]

theorem alistHas_set_self {κ α : Type} [DecidableEq κ] (m : List (κ × α)) (k : κ) (v : α) :
    alistHas (alistSet m k v) k = true := by
  simp [alistHas, alistGet_set_self]

/-! ## handleInner lemmas -/

/-- The admission context of an inner event with timestamp `c`, relative to a state
and a wall clock: everything that must hold for the event to reach the dedup check
at server.ts line 398. -/
def reachesDedupAt (now : Rat) (st : ServerState) (ev : InnerEvent) (c : Rat) : Prop :=
  ev.kind = 80 ∧ ev.pubkey = ev.sealPubkey ∧ contentIsString ev.content = true
  ∧ ev.created_at = some c ∧ st.oldestTime ≤ c ∧ c ≤ now + 600

def reachesDedup (now : Rat) (st : ServerState) (ev : InnerEvent) : Prop :=
  ∃ c, reachesDedupAt now st ev c

/-- `handleInner` never changes the time cursor. -/
theorem handleInner_oldestTime (decode : String → List Nat) (now : Rat)
    (st : ServerState) (ev : InnerEvent) :
    (handleInner decode now st ev).1.oldestTime = st.oldestTime := by
  unfold handleInner
  repeat' split
  all_goals first
    | rfl
    | (dsimp only; split <;> rfl)

/-- Extraction: an admitted event reached (and passed) every admission check and
was not yet in the dedup map. -/
theorem passedAdmission_pre (decode : String → List Nat) (now : Rat)
    (st : ServerState) (ev : InnerEvent)
    (h : passedAdmission (handleInner decode now st ev).2 = true) :
    ∃ c i, ev.id = some i ∧ reachesDedupAt now st ev c
      ∧ alistHas st.handledRequestIds i = false := by
  unfold handleInner at h
  split at h
  · simp [passedAdmission] at h
  split at h
  · simp [passedAdmission] at h
  rename_i hkind hpk
  split at h
  · rename_i c i hca hid
    split at h
    · simp [passedAdmission] at h
    rename_i hstr
    split at h
    · simp [passedAdmission] at h
    rename_i hold
    split at h
    · simp [passedAdmission] at h
    rename_i hfut
    split at h
    · simp [passedAdmission] at h
    rename_i hhas
    exact ⟨c, i, hid,
      ⟨not_ne_iff.mp hkind, not_ne_iff.mp hpk, by simpa using hstr, hca,
        not_lt.mp hold, not_lt.mp hfut⟩,
      by simpa using hhas⟩
  · simp [passedAdmission] at h

/-- Under the admission context (event reaches the dedup check) a replayed id is
dropped at the dedup check with the state untouched (server.ts lines 398-401). -/
theorem handleInner_replay_eq (decode : String → List Nat) (now : Rat)
    (st : ServerState) (ev : InnerEvent) (c : Rat) (i : String)
    (hid : ev.id = some i) (hr : reachesDedupAt now st ev c)
    (hhas : alistHas st.handledRequestIds i = true) :
    handleInner decode now st ev = (st, .dropped .replay) := by
  obtain ⟨hk, hp, hcs, hca, hge, hle⟩ := hr
  unfold handleInner
  rw [if_neg (not_not_intro hk), if_neg (not_not_intro hp), hca, hid]
  try dsimp only
  rw [hcs]
  rw [if_neg (by simp), if_neg (not_lt.mpr hge), if_neg (not_lt.mpr hle), if_pos hhas]

/-- Under the admission context, a fresh id is always inserted into the dedup map
(server.ts line 402), whatever happens to the content afterwards. -/
theorem handleInner_handled_insert (decode : String → List Nat) (now : Rat)
    (st : ServerState) (ev : InnerEvent) (c : Rat) (i : String)
    (hid : ev.id = some i) (hr : reachesDedupAt now st ev c)
    (hnew : alistHas st.handledRequestIds i = false) :
    (handleInner decode now st ev).1.handledRequestIds
      = alistSet st.handledRequestIds i c := by
  obtain ⟨hk, hp, hcs, hca, hge, hle⟩ := hr
  unfold handleInner
  rw [if_neg (not_not_intro hk), if_neg (not_not_intro hp), hca, hid]
  try dsimp only
  rw [hcs]
  rw [if_neg (by simp), if_neg (not_lt.mpr hge), if_neg (not_lt.mpr hle),
    if_neg (by simp [hnew])]
  try dsimp only
  split
  · rfl
  · split <;> rfl

/-- Under the admission context with a fresh id, content that fails to parse or
validate is dropped as a content error, after the dedup insert
(server.ts lines 403-438). -/
theorem handleInner_contentError_eq (decode : String → List Nat) (now : Rat)
    (st : ServerState) (ev : InnerEvent) (c : Rat) (i : String)
    (hid : ev.id = some i) (hr : reachesDedupAt now st ev c)
    (hnew : alistHas st.handledRequestIds i = false)
    (hbad : parseValidate ev.content = none) :
    handleInner decode now st ev
      = ({ st with handledRequestIds := alistSet st.handledRequestIds i c },
         .dropped .contentError) := by
  obtain ⟨hk, hp, hcs, hca, hge, hle⟩ := hr
  unfold handleInner
  rw [if_neg (not_not_intro hk), if_neg (not_not_intro hp), hca, hid]
  try dsimp only
  rw [hcs]
  rw [if_neg (by simp), if_neg (not_lt.mpr hge), if_neg (not_lt.mpr hle),
    if_neg (by simp [hnew])]
  try dsimp only
  rw [hbad]

/-- A delivery whose inner id is already in the dedup map never dispatches. -/
theorem notDispatched_of_has (decode : String → List Nat) (now : Rat)
    (st : ServerState) (ev : InnerEvent) (i : String)
    (hid : ev.id = some i) (hhas : alistHas st.handledRequestIds i = true) :
    isDispatched (handleInner decode now st ev).2 = false := by
  unfold handleInner
  split
  · rfl
  split
  · rfl
  split
  · rename_i c i' hca hid'
    split
    · rfl
    split
    · rfl
    split
    · rfl
    split
    · rfl
    rename_i hhas'
    rw [hid] at hid'
    injection hid' with hii
    rw [← hii] at hhas'
    exact absurd hhas hhas'
  · rfl

theorem passedAdmission_bounds (decode : String → List Nat) (now : Rat)
    (st : ServerState) (ev : InnerEvent)
    (h : passedAdmission (handleInner decode now st ev).2 = true) :
    ∃ c, ev.created_at = some c ∧ st.oldestTime ≤ c ∧ c ≤ now + 600 := by
  obtain ⟨c, i, _, hr, _⟩ := passedAdmission_pre decode now st ev h
  exact ⟨c, hr.2.2.2.1, hr.2.2.2.2.1, hr.2.2.2.2.2⟩

theorem dispatched_passed (r : HandleResult) (h : isDispatched r = true) :
    passedAdmission r = true := by
  cases r with
  | dropped reason => simp [isDispatched] at h
  | stored => rfl
  | dispatched req => rfl

/-- Along any action suffix whose wall-clock times stay at or above `T`, a state
whose cursor is already at or above `T - 60` only ever admits events with
`created_at ≥ T - 60`. -/
theorem runTrace_accepted_bound (decode : String → List Nat) (T : Rat)
    (as : List Action) (st : ServerState)
    (h0 : T - 60 ≤ st.oldestTime) (hT : ∀ a ∈ as, T ≤ actionTime a) :
    ∀ x ∈ (runTrace decode st as).2, passedAdmission x.2.2 = true →
      ∃ c, x.2.1.created_at = some c ∧ T - 60 ≤ c := by
  induction as generalizing st with
  | nil => intro x hx; simp [runTrace] at hx
  | cons a rest ih =>
    cases a with
    | tick t =>
      intro x hx hp
      have ht : T ≤ t := hT _ (List.mem_cons_self _ _)
      refine ih (tickStep t st) ?_ (fun a ha => hT a (List.mem_cons_of_mem _ ha)) x ?_ hp
      · show T - 60 ≤ t - 60
        linarith
      · simpa [runTrace] using hx
    | deliver now ev =>
      intro x hx hp
      rw [runTrace] at hx
      simp only [List.mem_cons] at hx
      rcases hx with rfl | hx
      · obtain ⟨c, hc, hge, _⟩ := passedAdmission_bounds decode now st ev hp
        exact ⟨c, hc, by linarith⟩
      · refine ih (handleInner decode now st ev).1 ?_
          (fun a ha => hT a (List.mem_cons_of_mem _ ha)) x hx hp
        rw [handleInner_oldestTime]
        exact h0

/-- A trace made only of deliveries never moves the time cursor. -/
theorem runTrace_deliveries_oldestTime (decode : String → List Nat)
    (st : ServerState) (as : List Action) (hno : ∀ a ∈ as, isTick a = false) :
    (runTrace decode st as).1.oldestTime = st.oldestTime := by
  induction as generalizing st with
  | nil => rfl
  | cons a rest ih =>
    cases a with
    | tick t => exact absurd (hno _ (List.mem_cons_self _ _)) (by simp [isTick])
    | deliver now ev =>
      rw [runTrace]
      dsimp only
      rw [ih _ (fun a ha => hno a (List.mem_cons_of_mem _ ha)), handleInner_oldestTime]

/-- An event older than the current cursor is never admitted. -/
theorem rejected_of_old (decode : String → List Nat) (now : Rat)
    (st : ServerState) (ev : InnerEvent) (c : Rat)
    (hc : ev.created_at = some c) (hlt : c < st.oldestTime) :
    passedAdmission (handleInner decode now st ev).2 = false := by
  by_contra h
  rw [Bool.not_eq_false] at h
  obtain ⟨c', _, _, hr, _⟩ := passedAdmission_pre decode now st ev h
  rw [hr.2.2.2.1] at hc
  injection hc with hcc
  rw [← hcc] at hlt
  exact absurd hr.2.2.2.2.1 (not_le.mpr hlt)

/-- Claim C3: two deliveries carrying the same inner event id (while that id sits in the
request-dedup map) dispatch at most one request to the origin and produce at most
one outgoing response sequence; when the id is in the dedup map, the second delivery
that reaches the dedup check is rejected there with the state untouched. -/
theorem C3_replay_idempotence (decode : String → List Nat) (st : ServerState)
    (now1 now2 : Rat) (ev1 ev2 : InnerEvent) (i : String)
    (h1 : ev1.id = some i) (h2 : ev2.id = some i) :
    ¬(isDispatched (handleInner decode now1 st ev1).2 = true
      ∧ isDispatched
          (handleInner decode now2 (handleInner decode now1 st ev1).1 ev2).2 = true)
    ∧ (alistHas (handleInner decode now1 st ev1).1.handledRequestIds i = true →
        reachesDedup now2 (handleInner decode now1 st ev1).1 ev2 →
        handleInner decode now2 (handleInner decode now1 st ev1).1 ev2
          = ((handleInner decode now1 st ev1).1, .dropped .replay)) := by
  constructor
  · rintro ⟨hd1, hd2⟩
    obtain ⟨c, i', hid', hr, hnew⟩ :=
      passedAdmission_pre decode now1 st ev1 (dispatched_passed _ hd1)
    have hi : i' = i := by
      rw [h1] at hid'
      exact (Option.some_injective _ hid').symm
    rw [hi] at hnew
    have hhas1 : alistHas (handleInner decode now1 st ev1).1.handledRequestIds i = true := by
      rw [handleInner_handled_insert decode now1 st ev1 c i h1 hr hnew]
      exact alistHas_set_self _ _ _
    have hnd := notDispatched_of_has decode now2 _ ev2 i h2 hhas1
    rw [hnd] at hd2
    exact absurd hd2 (by simp)
  · intro hhas hreach
    obtain ⟨c2, hr2⟩ := hreach
    exact handleInner_replay_eq decode now2 _ ev2 c2 i h2 hr2 hhas

/-- Claim C4: every admitted inner event satisfies `oldestTime ≤ created_at ≤ now + 600`
at the moment of admission, and once a compaction tick has fired at wall-clock time
`T` (the wall clock staying at or above `T` afterwards), no later-admitted event has
`created_at < T - 60`. -/
theorem C4_time_window (decode : String → List Nat) (st : ServerState) (T : Rat)
    (rest : List Action) (hT : ∀ a ∈ rest, T ≤ actionTime a) :
    (∀ (now : Rat) (st' : ServerState) (ev : InnerEvent),
        passedAdmission (handleInner decode now st' ev).2 = true →
        ∃ c, ev.created_at = some c ∧ st'.oldestTime ≤ c ∧ c ≤ now + 600)
    ∧ (∀ x ∈ (runTrace decode st (Action.tick T :: rest)).2,
        passedAdmission x.2.2 = true →
        ∃ c, x.2.1.created_at = some c ∧ T - 60 ≤ c) := by
  constructor
  · intro now st' ev h
    exact passedAdmission_bounds decode now st' ev h
  · intro x hx hp
    have hstep : (runTrace decode st (Action.tick T :: rest)).2
        = (runTrace decode (tickStep T st) rest).2 := by
      rw [runTrace]
    refine runTrace_accepted_bound decode T rest (tickStep T st) ?_ hT x ?_ hp
    · show T - 60 ≤ T - 60
      exact le_refl _
    · rwa [hstep] at hx

/-- Claim C9: an inner event that passes admission but whose content fails RequestMessage
validation is dropped, yet its id has already been consumed by the dedup insert; a
later well-formed retransmission with the same id that reaches the dedup check is
rejected as a replay and never answered. -/
theorem C9_id_consumed_by_invalid_content (decode : String → List Nat)
    (st : ServerState) (now1 now2 : Rat) (ev1 ev2 : InnerEvent) (i : String) (c : Rat)
    (h1 : ev1.id = some i) (hr1 : reachesDedupAt now1 st ev1 c)
    (hnew : alistHas st.handledRequestIds i = false)
    (hbad : parseValidate ev1.content = none)
    (h2 : ev2.id = some i)
    (hr2 : reachesDedup now2 (handleInner decode now1 st ev1).1 ev2) :
    (handleInner decode now1 st ev1).2 = .dropped .contentError
    ∧ alistHas (handleInner decode now1 st ev1).1.handledRequestIds i = true
    ∧ handleInner decode now2 (handleInner decode now1 st ev1).1 ev2
        = ((handleInner decode now1 st ev1).1, .dropped .replay) := by
  have heq := handleInner_contentError_eq decode now1 st ev1 c i h1 hr1 hnew hbad
  have hhas : alistHas (handleInner decode now1 st ev1).1.handledRequestIds i = true := by
    rw [handleInner_handled_insert decode now1 st ev1 c i h1 hr1 hnew]
    exact alistHas_set_self _ _ _
  refine ⟨by rw [heq], hhas, ?_⟩
  obtain ⟨c2, hr2'⟩ := hr2
  exact handleInner_replay_eq decode now2 _ ev2 c2 i h2 hr2' hhas

/-- Claim C10: the time cursor starts at the process start time itself (not start − 60 s),
so before the first compaction tick every inner event with `created_at` earlier than
the start instant is rejected, even when `created_at` is within 60 seconds of `now`. -/
theorem C10_startup_cursor (decode : String → List Nat) (startTime : Rat)
    (as : List Action) (hno : ∀ a ∈ as, isTick a = false)
    (now : Rat) (ev : InnerEvent) (c : Rat)
    (hc : ev.created_at = some c) (hlt : c < startTime) :
    passedAdmission
      (handleInner decode now ((runTrace decode (initialState startTime) as).1) ev).2
        = false := by
  apply rejected_of_old decode now _ ev c hc
  rw [runTrace_deliveries_oldestTime decode _ as hno]
  exact hlt

/-! ## Claim theorems on `offer` and `getResponse` -/

/-- Claim C1 (amended): a reassembly step completes exactly when, after inserting the
offered part, the stored part map has at least as many entries as the `parts` value
declared by the *currently offered* part and a part with index 0 is stored; the
completed request's body is `assembleBody` (the concatenation over indices
`0 .. size-1` of the decoded stored bodies, a missing index contributing nothing)
and its `url`/`method`/`headers` come from the stored index-0 part. -/
theorem C1_amended_offer (decode : String → List Nat) (pending : PendingMap)
    (msg : RequestMessage) :
    ((∃ req, (offer decode pending msg).2 = .complete req) ↔
      (msg.parts ≤ (offerInsert pending msg).length
        ∧ (alistGet (offerInsert pending msg) 0).isSome = true))
    ∧ (∀ req, (offer decode pending msg).2 = .complete req →
        ∃ first, alistGet (offerInsert pending msg) 0 = some first
          ∧ req.url = first.url.getD ""
          ∧ req.method = first.method.getD ""
          ∧ req.headers = first.headers.getD []
          ∧ req.bodyBuffer = assembleBody decode (offerInsert pending msg)) := by
  unfold offer
  dsimp only
  by_cases hlt : (offerInsert pending msg).length < msg.parts
  · rw [if_pos hlt]
    constructor
    · constructor
      · rintro ⟨req, hreq⟩
        exact absurd hreq (by simp)
      · rintro ⟨hge, -⟩
        omega
    · intro req hreq
      exact absurd hreq (by simp)
  · rw [if_neg hlt]
    cases hget : alistGet (offerInsert pending msg) 0 with
    | none =>
      constructor
      · constructor
        · rintro ⟨req, hreq⟩
          exact absurd hreq (by simp)
        · rintro ⟨-, hsome⟩
          simp at hsome
      · intro req hreq
        exact absurd hreq (by simp)
    | some first =>
      constructor
      · constructor
        · rintro ⟨req, -⟩
          exact ⟨le_of_not_lt hlt, rfl⟩
        · rintro ⟨-, -⟩
          exact ⟨_, rfl⟩
      · intro req hreq
        simp only [OfferResult.complete.injEq] at hreq
        exact ⟨first, rfl, by rw [← hreq], by rw [← hreq], by rw [← hreq], by rw [← hreq]⟩

/-- A faulty transformer invocation: one that neither returns `undefined` nor an
object passing the shape checks of `validateManip` (this includes a transformer
that throws). -/
def manipFaulty : ManipResult → Prop
  | .undef => False
  | .nonObject => True
  | .throws => True
  | .obj o => validateManip o = none

/-- Claim C2 (amended): when the route is allowed and the origin produced a response, a
faulty transformer makes `getResponse` return the synthetic
`{500, {}, "Request failed"}` response — the original origin response is discarded,
not kept. -/
theorem C2_amended_transformer_fault (requestInfo : RequestInfo)
    (pos : Option (List (String → Bool))) (neg : List (String → Bool))
    (r : ResponseInfo) (f : ResponseInfo → ManipResult)
    (hallow : routeAllowed pos neg requestInfo.url = true)
    (hfault : manipFaulty (f r)) :
    getResponse requestInfo pos neg (.ok r) (some f) = (some fault500, true) := by
  unfold getResponse
  rw [hallow]
  cases hf : f r with
  | undef =>
    rw [hf] at hfault
    exact absurd hfault (by simp [manipFaulty])
  | nonObject => simp [hf]
  | throws => simp [hf]
  | obj o =>
    rw [hf] at hfault
    simp [hf, manipFaulty.eq_4] at hfault ⊢
    rw [hfault]

/-- Claim C6: a reassembled request whose URL does not begin with `/`, or for which
positive patterns are configured and none matches, or for which some negative
pattern matches, gets the synthetic 403 `Forbidden route` response and the origin
HTTP client is not invoked. -/
theorem C6_forbidden_route (requestInfo : RequestInfo)
    (pos : Option (List (String → Bool))) (neg : List (String → Bool))
    (origin : OriginOutcome) (manipulator : Option (ResponseInfo → ManipResult))
    (hdeny : requestInfo.url.data.head? ≠ some '/'
      ∨ (∃ ms, pos = some ms ∧ ∀ m ∈ ms, m requestInfo.url = false)
      ∨ (∃ m ∈ neg, m requestInfo.url = true)) :
    getResponse requestInfo pos neg origin manipulator = (some forbidden403, false) := by
  have hra : routeAllowed pos neg requestInfo.url = false := by
    unfold routeAllowed
    rcases hdeny with h | ⟨ms, hms, hall⟩ | ⟨m, hm, hmatch⟩
    · simp [h]
    · have hB : ms.any (fun m => m requestInfo.url) = false := by
        rw [List.any_eq_false]
        intro m hm
        simp [hall m hm]
      simp [hms, hB]
    · have hC : neg.any (fun m => m requestInfo.url) = true :=
        List.any_eq_true.mpr ⟨m, hm, hmatch⟩
      simp [hC]
  simp [getResponse, hra]

/-- Claim C7 (code behaviour at the claim's inputs): for an allowed request, a transport
or protocol error on the origin dispatch rejects the promise and the catch block
yields the synthetic `{500, {}, "Request failed"}`; but when the configured timeout
elapses with no response the promise never settles — no `'timeout'` listener
destroys the request — so `getResponse` hangs instead of returning the 500. -/
theorem C7_origin_failure (requestInfo : RequestInfo)
    (pos : Option (List (String → Bool))) (neg : List (String → Bool))
    (manipulator : Option (ResponseInfo → ManipResult))
    (hallow : routeAllowed pos neg requestInfo.url = true) :
    getResponse requestInfo pos neg .transportError manipulator = (some fault500, true)
    ∧ getResponse requestInfo pos neg .timedOut manipulator = (none, true) := by
  constructor <;> simp [getResponse, hallow]

/-! ## Claim theorems on the publisher -/

theorem memZipWith {β γ δ : Type} (f : β → γ → δ) :
    ∀ (l₁ : List β) (l₂ : List γ) (x : δ), x ∈ List.zipWith f l₁ l₂ →
      ∃ u v, u ∈ l₁ ∧ v ∈ l₂ ∧ x = f u v := by
  intro l₁
  induction l₁ with
  | nil =>
    intro l₂ x hx
    simp at hx
  | cons a rest ih =>
    intro l₂ x hx
    cases l₂ with
    | nil => simp at hx
    | cons b rest₂ =>
      rw [List.zipWith_cons_cons] at hx
      rcases List.mem_cons.mp hx with rfl | hx
      · exact ⟨a, b, List.mem_cons_self _ _, List.mem_cons_self _ _, rfl⟩
      · obtain ⟨u, v, hu, hv, hx⟩ := ih rest₂ x hx
        exact ⟨u, v, List.mem_cons_of_mem _ hu, List.mem_cons_of_mem _ hv, hx⟩

theorem publishSequence_wrapKeys {α κ : Type} (publicOf : α → String)
    (convKey : α → String → κ) (encrypt : String → κ → String)
    (sealJson : SignedEvent α → String) (secretKey : α) (requesterPub : String)
    (now : Rat) (safeRelays : List String) :
    ∀ (chunkJsons : List String) (randomKeys : List α) (sealAges : List Rat),
      chunkJsons.length = randomKeys.length → randomKeys.length = sealAges.length →
      (publishSequence publicOf convKey encrypt sealJson secretKey randomKeys
          requesterPub now sealAges chunkJsons safeRelays).map
        (fun pr => pr.2.signedBy) = randomKeys := by
  intro chunkJsons
  induction chunkJsons with
  | nil =>
    intro randomKeys sealAges h1 _
    rw [List.length_nil] at h1
    rw [List.eq_nil_of_length_eq_zero h1.symm]
    rfl
  | cons cj rest ih =>
    intro randomKeys sealAges h1 h2
    cases randomKeys with
    | nil => simp at h1
    | cons rk rks =>
      cases sealAges with
      | nil => simp at h2
      | cons age ages =>
        unfold publishSequence
        rw [List.zip_cons_cons, List.zipWith_cons_cons, List.map_cons]
        have htail := ih rks ages (by simpa using h1) (by simpa using h2)
        unfold publishSequence at htail
        rw [htail]
        rfl

/-- Claim C8: every published gift-wrap is signed with (and its `pubkey` derived from)
the per-chunk freshly generated random secret, while the enclosed seal is always
signed with the proxy's long-lived secret; provided key derivation is injective and
the freshly drawn secrets differ from the long-lived one, no outgoing wrap's
`pubkey` equals the proxy's long-lived public key.  With matching stream lengths the
wrap signing keys are exactly the stream of freshly generated secrets, one per
outgoing event. -/
theorem C8_wrap_key_discipline {α κ : Type} (publicOf : α → String)
    (convKey : α → String → κ) (encrypt : String → κ → String)
    (sealJson : SignedEvent α → String) (secretKey : α) (randomKeys : List α)
    (requesterPub : String) (now : Rat) (sealAges : List Rat)
    (chunkJsons : List String) (safeRelays : List String)
    (hinj : Function.Injective publicOf)
    (hfresh : ∀ rk ∈ randomKeys, rk ≠ secretKey) :
    (∀ pr ∈ publishSequence publicOf convKey encrypt sealJson secretKey randomKeys
        requesterPub now sealAges chunkJsons safeRelays,
      pr.1.signedBy = secretKey ∧ pr.1.pubkey = publicOf secretKey
      ∧ pr.2.signedBy ∈ randomKeys
      ∧ pr.2.pubkey = publicOf pr.2.signedBy
      ∧ pr.2.pubkey ≠ publicOf secretKey)
    ∧ (chunkJsons.length = randomKeys.length → randomKeys.length = sealAges.length →
        (publishSequence publicOf convKey encrypt sealJson secretKey randomKeys
            requesterPub now sealAges chunkJsons safeRelays).map
          (fun pr => pr.2.signedBy) = randomKeys) := by
  constructor
  · intro pr hpr
    obtain ⟨cj, rka, hcj, hrka, rfl⟩ := memZipWith _ _ _ _ hpr
    obtain ⟨rk, age⟩ := rka
    have hrk : rk ∈ randomKeys := (List.of_mem_zip hrka).1
    refine ⟨rfl, rfl, hrk, rfl, ?_⟩
    intro hcontra
    exact hfresh _ hrk (hinj hcontra)
  · exact publishSequence_wrapKeys publicOf convKey encrypt sealJson secretKey
      requesterPub now safeRelays chunkJsons randomKeys sealAges

/-! ## Counterexamples and witnesses -/

/-- Counterexample to claim C1 as stated: offer a first part declaring `parts = 3`,
then a second part (same id, index 1) declaring `parts = 2`.  The second offer
completes the request even though only 2 distinct part indices are stored while the
first-arriving part declared 3 parts: completion is governed by the *currently
offered* part's `parts` value, not the first arrival's. -/
theorem C1_counterexample :
    ((offer asciiBytes [] ⟨"r", 0, 3, "AA", some "/", some "GET", some []⟩).2
        = OfferResult.incomplete)
    ∧ ((offer asciiBytes
          (offer asciiBytes [] ⟨"r", 0, 3, "AA", some "/", some "GET", some []⟩).1
          ⟨"r", 1, 2, "BB", none, none, none⟩).2
        = OfferResult.complete ⟨"/", "GET", [], asciiBytes "AA" ++ asciiBytes "BB"⟩)
    ∧ (offerInsert
          (offer asciiBytes [] ⟨"r", 0, 3, "AA", some "/", some "GET", some []⟩).1
          ⟨"r", 1, 2, "BB", none, none, none⟩).length = 2
    ∧ (⟨"r", 0, 3, "AA", some "/", some "GET", some []⟩ : RequestMessage).parts ≠ 2 := by
  refine ⟨rfl, ?_, rfl, by decide⟩
  decide

/-- Witness for C1 (amended): a single-part request completes on its only offer. -/
theorem C1_amended_offer_witness :
    ∃ req, (offer asciiBytes [] ⟨"q", 0, 1, "AA", some "/x", some "GET", some []⟩).2
      = OfferResult.complete req := by
  have h := C1_amended_offer asciiBytes [] ⟨"q", 0, 1, "AA", some "/x", some "GET", some []⟩
  exact h.1.mpr (by decide)

/-- Counterexample to claim C2 as stated: with the route allowed and origin response
`{200, {}, empty}`, a manipulator returning an object without a numeric `status`
makes `getResponse` return the synthetic 500, not the original origin response. -/
theorem C2_counterexample :
    getResponse ⟨"/", "GET", [], []⟩ none [] (.ok ⟨200, [], []⟩)
        (some (fun _ => .obj ⟨1, none, none, none⟩))
      = (some fault500, true)
    ∧ (some (⟨200, [], []⟩ : ResponseInfo) : Option ResponseInfo) ≠ some fault500 := by
  refine ⟨rfl, by decide⟩

/-- Witness for C2 (amended): a manipulator returning a non-object value yields the
synthetic 500 response. -/
theorem C2_amended_transformer_fault_witness :
    getResponse ⟨"/", "GET", [], []⟩ none [] (.ok ⟨200, [], []⟩)
        (some (fun _ => .nonObject)) = (some fault500, true) :=
  C2_amended_transformer_fault ⟨"/", "GET", [], []⟩ none [] ⟨200, [], []⟩
    (fun _ => .nonObject) (by decide) trivial

/-- Witness for C3: with id `"i"` already in the dedup map, a delivery that reaches
the dedup check is rejected there as a replay with the state untouched. -/
theorem C3_replay_idempotence_witness :
    handleInner (fun _ => []) 0
        ((handleInner (fun _ => []) 0
            ⟨0, [("i", 5)], []⟩ ⟨80, "p", "p", some 5, some "i", .unparsable⟩).1)
        ⟨80, "p", "p", some 5, some "i", .unparsable⟩
      = ((handleInner (fun _ => []) 0
            ⟨0, [("i", 5)], []⟩ ⟨80, "p", "p", some 5, some "i", .unparsable⟩).1,
         .dropped .replay) := by
  have hr : reachesDedupAt 0 ⟨0, [("i", 5)], []⟩
      ⟨80, "p", "p", some 5, some "i", .unparsable⟩ 5 :=
    ⟨rfl, rfl, rfl, rfl, by show (0 : Rat) ≤ 5; norm_num, by show (5 : Rat) ≤ 0 + 600; norm_num⟩
  have heq := handleInner_replay_eq (fun _ => []) 0 ⟨0, [("i", 5)], []⟩
      ⟨80, "p", "p", some 5, some "i", .unparsable⟩ 5 "i" rfl hr (by decide)
  have h := C3_replay_idempotence (fun _ => []) ⟨0, [("i", 5)], []⟩ 0 0
      ⟨80, "p", "p", some 5, some "i", .unparsable⟩
      ⟨80, "p", "p", some 5, some "i", .unparsable⟩ "i" rfl rfl
  apply h.2
  · rw [heq]
    decide
  · rw [heq]
    exact ⟨5, rfl, rfl, rfl, rfl, by show (0 : Rat) ≤ 5; norm_num,
      by show (5 : Rat) ≤ 0 + 600; norm_num⟩

/-- Witness for C4: a compaction tick at wall-clock 100 followed by a delivery at
wall-clock 100. -/
theorem C4_time_window_witness :
    (∀ (now : Rat) (st' : ServerState) (ev : InnerEvent),
        passedAdmission (handleInner (fun _ => []) now st' ev).2 = true →
        ∃ c, ev.created_at = some c ∧ st'.oldestTime ≤ c ∧ c ≤ now + 600)
    ∧ (∀ x ∈ (runTrace (fun _ => []) (initialState 0)
          (Action.tick 100 :: [Action.deliver 100 ⟨80, "p", "p", some 90, some "j", .unparsable⟩])).2,
        passedAdmission x.2.2 = true →
        ∃ c, x.2.1.created_at = some c ∧ 100 - 60 ≤ c) :=
  C4_time_window (fun _ => []) (initialState 0) 100
    [Action.deliver 100 ⟨80, "p", "p", some 90, some "j", .unparsable⟩]
    (by intro a ha; rw [List.mem_singleton.mp ha]; show (100 : Rat) ≤ 100; norm_num)

/-- Witness for C9: an admitted event whose content object lacks the `id` field is
dropped as a content error, yet a later well-formed event with the same inner id is
rejected as a replay. -/
theorem C9_id_consumed_witness :
    (handleInner (fun _ => []) 0 ⟨0, [], []⟩
        ⟨80, "p", "p", some 5, some "j",
          .parsed ⟨none, some 0, some 1, some "", some "/", some "GET", some []⟩⟩).2
      = .dropped .contentError
    ∧ alistHas (handleInner (fun _ => []) 0 ⟨0, [], []⟩
        ⟨80, "p", "p", some 5, some "j",
          .parsed ⟨none, some 0, some 1, some "", some "/", some "GET", some []⟩⟩).1.handledRequestIds
        "j" = true
    ∧ handleInner (fun _ => []) 0
        (handleInner (fun _ => []) 0 ⟨0, [], []⟩
          ⟨80, "p", "p", some 5, some "j",
            .parsed ⟨none, some 0, some 1, some "", some "/", some "GET", some []⟩⟩).1
        ⟨80, "p", "p", some 6, some "j", .unparsable⟩
      = ((handleInner (fun _ => []) 0 ⟨0, [], []⟩
            ⟨80, "p", "p", some 5, some "j",
              .parsed ⟨none, some 0, some 1, some "", some "/", some "GET", some []⟩⟩).1,
         .dropped .replay) :=
  C9_id_consumed_by_invalid_content (fun _ => []) ⟨0, [], []⟩ 0 0
    ⟨80, "p", "p", some 5, some "j",
      .parsed ⟨none, some 0, some 1, some "", some "/", some "GET", some []⟩⟩
    ⟨80, "p", "p", some 6, some "j", .unparsable⟩ "j" 5
    rfl
    ⟨rfl, rfl, rfl, rfl, by show (0 : Rat) ≤ 5; norm_num, by show (5 : Rat) ≤ 0 + 600; norm_num⟩
    (by decide) rfl rfl
    ⟨6, rfl, rfl, rfl, rfl,
      by rw [handleInner_oldestTime]; show (0 : Rat) ≤ 6; norm_num,
      by show (6 : Rat) ≤ 0 + 600; norm_num⟩

/-- Witness for C10: before any compaction tick, an event 5 s older than the process
start is rejected even though it is within 60 s of `now`. -/
theorem C10_startup_cursor_witness :
    passedAdmission
      (handleInner (fun _ => []) 10
        ((runTrace (fun _ => []) (initialState 10) []).1)
        ⟨80, "p", "p", some 5, some "j", .unparsable⟩).2 = false :=
  C10_startup_cursor (fun _ => []) 10 [] (by simp) 10
    ⟨80, "p", "p", some 5, some "j", .unparsable⟩ 5 rfl (by norm_num)

/-- Witness for C6: positive patterns configured, none matching `/v2/y`. -/
theorem C6_forbidden_route_witness :
    getResponse ⟨"/v2/y", "GET", [], []⟩ (some [fun u => u == "/v1/x"]) []
        (.ok ⟨200, [], []⟩) none = (some forbidden403, false) := by
  apply C6_forbidden_route
  right; left
  refine ⟨[fun u => u == "/v1/x"], rfl, ?_⟩
  intro m hm
  rw [List.mem_singleton.mp hm]
  decide

/-- Witness for C7: an allowed request with a failing (or silent) origin. -/
theorem C7_origin_failure_witness :
    getResponse ⟨"/", "GET", [], []⟩ none [] .transportError none = (some fault500, true)
    ∧ getResponse ⟨"/", "GET", [], []⟩ none [] .timedOut none = (none, true) :=
  C7_origin_failure ⟨"/", "GET", [], []⟩ none [] none (by decide)

/-- Witness for C8: one chunk, one fresh key distinct from the long-lived secret. -/
theorem C8_wrap_key_discipline_witness :
    (publishSequence (fun s => s) (fun _ _ => ()) (fun s _ => s) (fun _ => "")
        "sk" ["r1"] "req" 0 [0] ["chunk"] []).map (fun pr => pr.2.signedBy) = ["r1"] :=
  (C8_wrap_key_discipline (fun s => s) (fun _ _ => ()) (fun s _ => s) (fun _ => "")
      "sk" ["r1"] "req" 0 [0] ["chunk"] [] (fun _ _ h => h)
      (by intro rk hrk; rw [List.mem_singleton.mp hrk]; decide)).2 rfl rfl

/-- Witness for C5: the two-byte body `"ok"` yields a single chunk. -/
theorem C5_response_chunker_witness :
    (buildResponseMessages "r1" ⟨200, [], [111, 107]⟩).length = 1
    ∧ ((buildResponseMessages "r1" ⟨200, [], [111, 107]⟩).map
          ResponseMessage.bodyChunk).flatten = [111, 107] := by
  have h := C5_response_chunker "r1" ⟨200, [], [111, 107]⟩
  refine ⟨?_, h.2.1⟩
  rw [h.1]
  norm_num [partBodyMaxSize]

end Nostr2Http
